import Mathlib

/-!
# Verification of the blood-pressure simulator core

Shallow embedding of the repository's two core modules:

* the Dataset Engine (`generateAllCombinations`, `calculateExpectedCombinations`,
  `shuffleArray`, `generateBloodPressureDataset`, `getReadingAtIndex`,
  `validateReading`, `getConfig`), and
* the Session Store (`storeDataset`, `getDataset`, `storeCurrentIndex`,
  `getCurrentIndex`, `storeTimestamp`, `getTimestamp`, `clearStorage`,
  `isAppInitialized`, `getStorageKeys`).

JavaScript numbers appearing in the code are all exact small integers, modelled
as `Int` (and `Nat` for array lengths/counts).  `Math.random()` results are
modelled as an explicit stream `rand : Nat → ℚ` of values in `[0,1)` indexed by
the loop variable of the call site.  `Date.now()` is an explicit
`baseTimestamp` parameter.  `localStorage` is modelled as an association list
of string keys and values together with an availability flag.
-/

/-- `BloodPressureReading` from `types.ts`: `systolic`, `diastolic` and
`timestamp` are integer-valued JS numbers. -/
structure BloodPressureReading where
  systolic : Int
  diastolic : Int
  timestamp : Int
deriving DecidableEq

/-- One `{min, max}` range of `BloodPressureConfig`. -/
structure RangeBounds where
  min : Int
  max : Int
deriving DecidableEq

/-- `BloodPressureConfig` from `types.ts` (the field name `pulsePresssure`
keeps the source's spelling). -/
structure BloodPressureConfig where
  systolic : RangeBounds
  diastolic : RangeBounds
  pulsePresssure : RangeBounds
deriving DecidableEq

/-- The error taxonomy of `AppError.type` in `types.ts`. -/
inductive ErrorType where
  | STORAGE_ERROR
  | GENERATION_ERROR
  | VALIDATION_ERROR
deriving DecidableEq

/-- `AppError` from `types.ts`. -/
structure AppError where
  type : ErrorType
  message : String
  details : Option String := none
deriving DecidableEq

/-- `DatasetResult` from `types.ts`: the generator either succeeds with a
dataset or fails with an `AppError`.  The source's
`{success; dataset?; error?}` record is modelled as a tagged union. -/
inductive DatasetResult where
  | success (dataset : List BloodPressureReading)
  | error (e : AppError)
deriving DecidableEq

/-- `StorageResult<T>` from `types.ts`, as a tagged union. -/
inductive StorageResult (α : Type) where
  | ok (data : α)
  | err (error : AppError)
deriving DecidableEq

/-- The module constant `CONFIG` of the generator. -/
def CONFIG : BloodPressureConfig :=
  { systolic := { min := 90, max := 140 }
  , diastolic := { min := 60, max := 90 }
  , pulsePresssure := { min := 20, max := 60 } }

/-- `getConfig()`: returns a (defensive copy of) the constant configuration;
copies are identities on immutable values. -/
def getConfig : BloodPressureConfig := CONFIG

/-- `isValidPulsePreasure` (source spelling): the pulse pressure
`systolic - diastolic` lies within the configured pulse-pressure range. -/
def isValidPulsePreasure (cfg : BloodPressureConfig) (systolic diastolic : Int) : Bool :=
  let pulsePressure := systolic - diastolic
  decide (pulsePressure ≥ cfg.pulsePresssure.min) &&
    decide (pulsePressure ≤ cfg.pulsePresssure.max)

/-- The integer values visited by a JS loop
`for (let v = lo; v <= hi; v++)`: the list `[lo, lo+1, ..., hi]`,
empty when `lo > hi`. -/
def rangeInts (lo hi : Int) : List Int :=
  (List.range (hi + 1 - lo).toNat).map (fun k : Nat => lo + (k : Int))

/-- The body of the inner loop of `generateAllCombinations`: push
`{systolic, diastolic, timestamp: baseTimestamp + combinations.length * 1000}`
when the pulse pressure is valid. -/
def pushValid (cfg : BloodPressureConfig) (baseTimestamp systolic : Int)
    (combinations : List BloodPressureReading) (diastolic : Int) :
    List BloodPressureReading :=
  if isValidPulsePreasure cfg systolic diastolic then
    combinations ++
      [{ systolic := systolic, diastolic := diastolic
       , timestamp := baseTimestamp + (combinations.length : Int) * 1000 }]
  else combinations

/-- `generateAllCombinations`: the double loop over the systolic and diastolic
ranges, pushing each pair with valid pulse pressure, with timestamps
`baseTimestamp + ordinal * 1000` (`Date.now()` is the `baseTimestamp`
parameter). -/
def generateAllCombinations (cfg : BloodPressureConfig) (baseTimestamp : Int) :
    List BloodPressureReading :=
  (rangeInts cfg.systolic.min cfg.systolic.max).foldl
    (fun combinations systolic =>
      (rangeInts cfg.diastolic.min cfg.diastolic.max).foldl
        (pushValid cfg baseTimestamp systolic) combinations)
    []

/-- The body of the inner loop of `calculateExpectedCombinations`. -/
def countValid (cfg : BloodPressureConfig) (systolic : Int) (count : Nat)
    (diastolic : Int) : Nat :=
  if isValidPulsePreasure cfg systolic diastolic then count + 1 else count

/-- `calculateExpectedCombinations`: the brute-force double loop recomputing
the number of pairs that pass the pulse-pressure predicate. -/
def calculateExpectedCombinations (cfg : BloodPressureConfig) : Nat :=
  (rangeInts cfg.systolic.min cfg.systolic.max).foldl
    (fun count systolic =>
      (rangeInts cfg.diastolic.min cfg.diastolic.max).foldl
        (countValid cfg systolic) count)
    0

/-- The destructuring swap `[a[i], a[j]] = [a[j], a[i]]` on a list.  When
either index is out of range the list is returned unchanged; inside
`shuffleArray` both indices are always in range. -/
def listSwap (l : List α) (i j : Nat) : List α :=
  match l.get? i, l.get? j with
  | some a, some b => (l.set i b).set j a
  | _, _ => l

/-- The loop of `shuffleArray`, running the index `i` from
`shuffled.length - 1` down to `1`; at index `i` it draws
`j = Math.floor(Math.random() * (i + 1))` (the `Math.random()` call at loop
index `i` is `rand i`) and swaps positions `i` and `j`. -/
def shuffleAux (rand : Nat → ℚ) : Nat → List α → List α
  | 0, shuffled => shuffled
  | i + 1, shuffled =>
      shuffleAux rand i
        (listSwap shuffled (i + 1)
          (Int.floor (rand (i + 1) * (((i + 1) + 1 : Nat) : ℚ))).toNat)

/-- `shuffleArray`: Fisher–Yates shuffle; `const shuffled = [...array]` copies
the input, so the loop acts on a value equal to `array`. -/
def shuffleArray (rand : Nat → ℚ) (array : List α) : List α :=
  shuffleAux rand (array.length - 1) array

/-- `generateBloodPressureDataset`: enumerate all combinations, recompute the
expected count, fail with a `GENERATION_ERROR` if they diverge, otherwise
return the shuffled dataset.  (The surrounding `try`/`catch` never fires: the
model is total.) -/
def generateBloodPressureDataset (cfg : BloodPressureConfig)
    (baseTimestamp : Int) (rand : Nat → ℚ) : DatasetResult :=
  let allCombinations := generateAllCombinations cfg baseTimestamp
  let expectedCount := calculateExpectedCombinations cfg
  if allCombinations.length ≠ expectedCount then
    DatasetResult.error
      { type := ErrorType.GENERATION_ERROR
      , message := "Dataset generation failed: expected " ++
          toString expectedCount ++ " combinations, got " ++
          toString allCombinations.length
      , details := some "The blood pressure range calculations may be incorrect" }
  else
    DatasetResult.success (shuffleArray rand allCombinations)

/-- `getReadingAtIndex`: returns `null` on an empty dataset, else indexes at
`index % dataset.length`.  JS `%` is the truncated remainder (`Int.tmod`), so
it is negative for negative `index` (unless `index` is an exact multiple of
the length), and `dataset[n]` is `undefined` for negative `n`; both `null`
and `undefined` are modelled as `none`. -/
def getReadingAtIndex (dataset : List BloodPressureReading) (index : Int) :
    Option BloodPressureReading :=
  if dataset.length = 0 then none
  else
    let normalizedIndex := Int.tmod index (dataset.length : Int)
    if normalizedIndex < 0 then none
    else dataset.get? normalizedIndex.toNat

/-- `validateReading`: range checks on systolic and diastolic followed by the
pulse-pressure check, mirroring the source's early returns.  (The `!reading`
null-check cannot fire in the model: readings are values.) -/
def validateReading (cfg : BloodPressureConfig)
    (reading : BloodPressureReading) : Bool :=
  if decide (reading.systolic < cfg.systolic.min) ||
      decide (reading.systolic > cfg.systolic.max) then false
  else if decide (reading.diastolic < cfg.diastolic.min) ||
      decide (reading.diastolic > cfg.diastolic.max) then false
  else if !(isValidPulsePreasure cfg reading.systolic reading.diastolic) then false
  else true

/-! ## Length of the enumeration vs. the recomputed count -/

theorem countValid_foldl_shift (cfg : BloodPressureConfig) (s : Int) :
    ∀ (ds : List Int) (c : Nat),
      ds.foldl (countValid cfg s) c = c + ds.foldl (countValid cfg s) 0 := by
  intro ds
  induction ds with
  | nil => intro c; simp
  | cons d ds ih =>
    intro c
    simp only [List.foldl_cons]
    rw [ih (countValid cfg s c d), ih (countValid cfg s 0 d)]
    unfold countValid
    split <;> omega

theorem outer_count_foldl_sum (cfg : BloodPressureConfig) (inner : List Int) :
    ∀ (ss : List Int) (c : Nat),
      ss.foldl (fun count s => inner.foldl (countValid cfg s) count) c
        = c + (ss.map (fun s => inner.foldl (countValid cfg s) 0)).sum := by
  intro ss
  induction ss with
  | nil => intro c; simp
  | cons s ss ih =>
    intro c
    simp only [List.foldl_cons, List.map_cons, List.sum_cons]
    rw [ih, countValid_foldl_shift cfg s inner c]
    omega

/-- The recomputed count, reshaped as a sum of per-systolic inner counts
(used to evaluate it without deep recursion). -/
theorem calculateExpectedCombinations_eq_sum (cfg : BloodPressureConfig) :
    calculateExpectedCombinations cfg =
      ((rangeInts cfg.systolic.min cfg.systolic.max).map
        (fun s => (rangeInts cfg.diastolic.min cfg.diastolic.max).foldl
          (countValid cfg s) 0)).sum := by
  unfold calculateExpectedCombinations
  rw [outer_count_foldl_sum]
  omega

set_option maxRecDepth 10000 in
theorem expectedCombinations_CONFIG :
    calculateExpectedCombinations CONFIG = 1161 := by
  rw [calculateExpectedCombinations_eq_sum]
  decide

theorem pushValid_length (cfg : BloodPressureConfig) (b s : Int)
    (acc : List BloodPressureReading) (d : Int) :
    (pushValid cfg b s acc d).length = countValid cfg s acc.length d := by
  unfold pushValid countValid
  split <;> simp

theorem inner_push_foldl_length (cfg : BloodPressureConfig) (b s : Int) :
    ∀ (ds : List Int) (acc : List BloodPressureReading),
      (ds.foldl (pushValid cfg b s) acc).length
        = ds.foldl (countValid cfg s) acc.length := by
  intro ds
  induction ds with
  | nil => intro acc; rfl
  | cons d ds ih =>
    intro acc
    simp only [List.foldl_cons]
    rw [ih, pushValid_length]

theorem generateAllCombinations_length (cfg : BloodPressureConfig) (b : Int) :
    (generateAllCombinations cfg b).length = calculateExpectedCombinations cfg := by
  unfold generateAllCombinations calculateExpectedCombinations
  generalize rangeInts cfg.systolic.min cfg.systolic.max = ss
  suffices h : ∀ (acc : List BloodPressureReading),
      (ss.foldl (fun acc s =>
        (rangeInts cfg.diastolic.min cfg.diastolic.max).foldl
          (pushValid cfg b s) acc) acc).length
      = ss.foldl (fun count s =>
        (rangeInts cfg.diastolic.min cfg.diastolic.max).foldl
          (countValid cfg s) count) acc.length by
    exact h []
  induction ss with
  | nil => intro acc; rfl
  | cons s ss ih =>
    intro acc
    simp only [List.foldl_cons]
    rw [ih, inner_push_foldl_length]

/-! ## The swap is a permutation -/

theorem cons_set_perm (b x : α) :
    ∀ (t : List α) (j : Nat), t.get? j = some b →
      (b :: t.set j x).Perm (x :: t) := by
  intro t
  induction t with
  | nil => intro j h; simp at h
  | cons y t ih =>
    intro j h
    match j with
    | 0 =>
      simp only [List.get?_cons_zero, Option.some.injEq] at h
      subst h
      simpa using List.Perm.swap x y t
    | j + 1 =>
      simp only [List.get?_cons_succ] at h
      have h1 : (b :: y :: t.set j x).Perm (y :: b :: t.set j x) :=
        List.Perm.swap y b _
      have h2 : (y :: b :: t.set j x).Perm (y :: x :: t) :=
        List.Perm.cons y (ih j h)
      have h3 : (y :: x :: t).Perm (x :: y :: t) := List.Perm.swap x y t
      simpa using (h1.trans h2).trans h3

theorem swap_set_perm :
    ∀ (l : List α) (i j : Nat) (a b : α),
      l.get? i = some a → l.get? j = some b →
      ((l.set i b).set j a).Perm l := by
  intro l
  induction l with
  | nil => intro i j a b hi _; simp at hi
  | cons x t ih =>
    intro i j a b hi hj
    match i, j with
    | 0, 0 =>
      simp only [List.get?_cons_zero, Option.some.injEq] at hi hj
      subst hi; subst hj
      simp
    | 0, j + 1 =>
      simp only [List.get?_cons_zero, Option.some.injEq] at hi
      simp only [List.get?_cons_succ] at hj
      subst hi
      simpa using cons_set_perm b x t j hj
    | i + 1, 0 =>
      simp only [List.get?_cons_zero, Option.some.injEq] at hj
      simp only [List.get?_cons_succ] at hi
      subst hj
      simpa using cons_set_perm a x t i hi
    | i + 1, j + 1 =>
      simp only [List.get?_cons_succ] at hi hj
      simpa using List.Perm.cons x (ih i j a b hi hj)

theorem listSwap_perm (l : List α) (i j : Nat) : (listSwap l i j).Perm l := by
  unfold listSwap
  cases hi : l.get? i with
  | none => simp
  | some a =>
    cases hj : l.get? j with
    | none => simp
    | some b => simpa using swap_set_perm l i j a b hi hj

theorem shuffleAux_perm (rand : Nat → ℚ) :
    ∀ (i : Nat) (l : List α), (shuffleAux rand i l).Perm l := by
  intro i
  induction i with
  | zero => intro l; exact List.Perm.refl l
  | succ i ih =>
    intro l
    exact (ih _).trans (listSwap_perm l (i + 1) _)

theorem shuffleArray_perm (rand : Nat → ℚ) (array : List α) :
    (shuffleArray rand array).Perm array :=
  shuffleAux_perm rand (array.length - 1) array

/-! ## Every generated reading is valid -/

theorem mem_rangeInts {lo hi x : Int} :
    x ∈ rangeInts lo hi ↔ lo ≤ x ∧ x ≤ hi := by
  unfold rangeInts
  constructor
  · intro h
    obtain ⟨k, hk, hx⟩ := List.mem_map.mp h
    rw [List.mem_range] at hk
    omega
  · intro h
    refine List.mem_map.mpr ⟨(x - lo).toNat, ?_, ?_⟩
    · rw [List.mem_range]; omega
    · omega

theorem validateReading_of_bounds (cfg : BloodPressureConfig)
    (s d t : Int)
    (hs1 : cfg.systolic.min ≤ s) (hs2 : s ≤ cfg.systolic.max)
    (hd1 : cfg.diastolic.min ≤ d) (hd2 : d ≤ cfg.diastolic.max)
    (hp : isValidPulsePreasure cfg s d = true) :
    validateReading cfg { systolic := s, diastolic := d, timestamp := t } = true := by
  unfold validateReading
  simp only [hp]
  rw [if_neg, if_neg, if_neg] <;> simp <;> omega

theorem inner_push_foldl_valid (cfg : BloodPressureConfig) (b s : Int)
    (hs1 : cfg.systolic.min ≤ s) (hs2 : s ≤ cfg.systolic.max) :
    ∀ (ds : List Int) (acc : List BloodPressureReading),
      (∀ d' ∈ ds, cfg.diastolic.min ≤ d' ∧ d' ≤ cfg.diastolic.max) →
      (∀ r ∈ acc, validateReading cfg r = true) →
      ∀ r ∈ ds.foldl (pushValid cfg b s) acc, validateReading cfg r = true := by
  intro ds
  induction ds with
  | nil => intro acc _ hacc; simpa using hacc
  | cons d ds ih =>
    intro acc hds hacc
    simp only [List.foldl_cons]
    refine ih _ (fun d' hd' => hds d' (List.mem_cons_of_mem d hd')) ?_
    intro r hr
    unfold pushValid at hr
    split at hr
    · rcases List.mem_append.mp hr with h | h
      · exact hacc r h
      · have hd := hds d (List.mem_cons_self d ds)
        simp only [List.mem_singleton] at h
        subst h
        exact validateReading_of_bounds cfg s d _ hs1 hs2 hd.1 hd.2 (by assumption)
    · exact hacc r hr

theorem generateAllCombinations_valid (cfg : BloodPressureConfig) (b : Int) :
    ∀ r ∈ generateAllCombinations cfg b, validateReading cfg r = true := by
  unfold generateAllCombinations
  suffices h : ∀ (ss : List Int) (acc : List BloodPressureReading),
      (∀ s ∈ ss, cfg.systolic.min ≤ s ∧ s ≤ cfg.systolic.max) →
      (∀ r ∈ acc, validateReading cfg r = true) →
      ∀ r ∈ ss.foldl (fun acc s =>
          (rangeInts cfg.diastolic.min cfg.diastolic.max).foldl
            (pushValid cfg b s) acc) acc,
        validateReading cfg r = true by
    refine h _ [] (fun s hs => mem_rangeInts.mp hs) (by simp)
  intro ss
  induction ss with
  | nil => intro acc _ hacc; simpa using hacc
  | cons s ss ih =>
    intro acc hss hacc
    simp only [List.foldl_cons]
    refine ih _ (fun s' hs' => hss s' (List.mem_cons_of_mem s hs')) ?_
    have hs := hss s (List.mem_cons_self s ss)
    exact inner_push_foldl_valid cfg b s hs.1 hs.2 _ acc
      (fun d' hd' => mem_rangeInts.mp hd') hacc

/-! ## Heap-level model of `shuffleArray` (for the no-mutation frame property)

JS arrays are references into a heap of mutable arrays, modelled as a
`List (List α)` indexed by allocation order.  `shuffleArrayH` is
`shuffleArray` at this level: `const shuffled = [...array]` reads the input
array and allocates a fresh array holding the same elements, and the loop
reads and writes only that fresh array. -/

/-- The `for` loop of `shuffleArray` acting on the heap: each iteration swaps
two positions of the array at reference `sref` in place. -/
def shuffleLoopH (rand : Nat → ℚ) (sref : Nat) :
    Nat → List (List α) → List (List α)
  | 0, heap => heap
  | i + 1, heap =>
      shuffleLoopH rand sref i
        (heap.set sref
          (listSwap (heap.getD sref []) (i + 1)
            (Int.floor (rand (i + 1) * (((i + 1) + 1 : Nat) : ℚ))).toNat))

/-- Heap-level `shuffleArray`: reads the input array at `ref`, allocates the
copy `[...array]` at a fresh reference, runs the swap loop on the copy, and
returns the final heap with the reference to the shuffled copy. -/
def shuffleArrayH (rand : Nat → ℚ) (heap : List (List α)) (ref : Nat) :
    List (List α) × Nat :=
  let contents := heap.getD ref []
  let sref := heap.length
  let heap1 := heap ++ [contents]
  (shuffleLoopH rand sref (contents.length - 1) heap1, sref)

theorem getD_set_ne (h : List (List α)) (i j : Nat) (x : List α)
    (hne : i ≠ j) : (h.set j x).getD i [] = h.getD i [] := by
  unfold List.getD
  rw [List.get?_eq_getElem?, List.get?_eq_getElem?,
    List.getElem?_set_ne (Ne.symm hne)]

theorem shuffleLoopH_frame (rand : Nat → ℚ) (sref : Nat) :
    ∀ (i : Nat) (heap : List (List α)) (r : Nat), r ≠ sref →
      (shuffleLoopH rand sref i heap).getD r [] = heap.getD r [] := by
  intro i
  induction i with
  | zero => intro heap r _; rfl
  | succ i ih =>
    intro heap r hr
    unfold shuffleLoopH
    rw [ih _ r hr, getD_set_ne _ _ _ _ hr]

theorem shuffleLoopH_contents (rand : Nat → ℚ) (sref : Nat) :
    ∀ (i : Nat) (heap : List (List α)), sref < heap.length →
      (shuffleLoopH rand sref i heap).getD sref []
        = shuffleAux rand i (heap.getD sref []) := by
  intro i
  induction i with
  | zero => intro heap _; rfl
  | succ i ih =>
    intro heap hlen
    unfold shuffleLoopH shuffleAux
    rw [ih _ (by simpa using hlen)]
    congr 1
    unfold List.getD
    rw [List.get?_eq_getElem?, List.getElem?_set_eq_of_lt _ hlen]
    rfl

/-! ## Helper lemmas for misconfigured ranges -/

theorem foldl_pushValid_of_invalid (cfg : BloodPressureConfig) (b s : Int)
    (ds : List Int) (hds : ∀ d ∈ ds, isValidPulsePreasure cfg s d = false) :
    ∀ acc, ds.foldl (pushValid cfg b s) acc = acc := by
  induction ds with
  | nil => intro acc; rfl
  | cons d ds ih =>
    intro acc
    have hd := hds d (List.mem_cons_self d ds)
    simp only [List.foldl_cons]
    rw [show pushValid cfg b s acc d = acc by unfold pushValid; simp [hd]]
    exact ih (fun d' hd' => hds d' (List.mem_cons_of_mem d hd')) acc

theorem foldl_countValid_of_invalid (cfg : BloodPressureConfig) (s : Int)
    (ds : List Int) (hds : ∀ d ∈ ds, isValidPulsePreasure cfg s d = false) :
    ∀ c, ds.foldl (countValid cfg s) c = c := by
  induction ds with
  | nil => intro c; rfl
  | cons d ds ih =>
    intro c
    have hd := hds d (List.mem_cons_self d ds)
    simp only [List.foldl_cons]
    rw [show countValid cfg s c d = c by unfold countValid; simp [hd]]
    exact ih (fun d' hd' => hds d' (List.mem_cons_of_mem d hd')) c

theorem generateAllCombinations_of_invalid (cfg : BloodPressureConfig) (b : Int)
    (h : ∀ s ∈ rangeInts cfg.systolic.min cfg.systolic.max,
      ∀ d ∈ rangeInts cfg.diastolic.min cfg.diastolic.max,
        isValidPulsePreasure cfg s d = false) :
    generateAllCombinations cfg b = [] := by
  unfold generateAllCombinations
  suffices hgen : ∀ ss : List Int,
      (∀ s ∈ ss, ∀ d ∈ rangeInts cfg.diastolic.min cfg.diastolic.max,
        isValidPulsePreasure cfg s d = false) →
      ∀ acc : List BloodPressureReading,
        ss.foldl (fun acc s =>
          (rangeInts cfg.diastolic.min cfg.diastolic.max).foldl
            (pushValid cfg b s) acc) acc = acc from
    hgen _ h []
  intro ss
  induction ss with
  | nil => intro _ acc; rfl
  | cons s ss ih =>
    intro hss acc
    simp only [List.foldl_cons]
    rw [foldl_pushValid_of_invalid cfg b s _ (hss s (List.mem_cons_self s ss))]
    exact ih (fun s' hs' => hss s' (List.mem_cons_of_mem s hs')) acc

/-! ## Claim theorems for the Dataset Engine -/

/-- **C10.**  Under the fixed built-in configuration the count-mismatch
`GENERATION_ERROR` branch of `generateBloodPressureDataset` is unreachable:
the enumerated length always equals the recomputed expected count, so for
every base timestamp and every stream of random draws the function returns
success (with the shuffled enumeration). -/
theorem generateBloodPressureDataset_always_success (ts : Int) (rand : Nat → ℚ) :
    generateBloodPressureDataset CONFIG ts rand =
      DatasetResult.success (shuffleArray rand (generateAllCombinations CONFIG ts)) := by
  unfold generateBloodPressureDataset
  rw [if_neg]
  simp [generateAllCombinations_length]

/-- **C1.**  `generateBloodPressureDataset` succeeds and returns a dataset
whose length equals the count recomputed by the brute-force double loop
(`calculateExpectedCombinations`), and for the fixed configuration that count
is exactly 1161. -/
theorem generateBloodPressureDataset_length (ts : Int) (rand : Nat → ℚ) :
    ∃ dataset, generateBloodPressureDataset CONFIG ts rand =
        DatasetResult.success dataset ∧
      dataset.length = calculateExpectedCombinations CONFIG ∧
      calculateExpectedCombinations CONFIG = 1161 := by
  refine ⟨shuffleArray rand (generateAllCombinations CONFIG ts),
    generateBloodPressureDataset_always_success ts rand, ?_, expectedCombinations_CONFIG⟩
  rw [(shuffleArray_perm rand _).length_eq]
  exact generateAllCombinations_length CONFIG ts

/-- **C5.**  Every reading in a dataset successfully returned by
`generateBloodPressureDataset` passes `validateReading`. -/
theorem generateBloodPressureDataset_all_valid (ts : Int) (rand : Nat → ℚ) :
    ∃ dataset, generateBloodPressureDataset CONFIG ts rand =
        DatasetResult.success dataset ∧
      dataset.all (validateReading CONFIG) = true := by
  refine ⟨shuffleArray rand (generateAllCombinations CONFIG ts),
    generateBloodPressureDataset_always_success ts rand, ?_⟩
  rw [List.all_eq_true]
  intro r hr
  exact generateAllCombinations_valid CONFIG ts r
    ((shuffleArray_perm rand _).mem_iff.mp hr)

/-- **C6.**  `shuffleArray` returns a permutation of its input: the multiset
of elements is preserved and the length is unchanged, for every choice of the
random draws. -/
theorem shuffleArray_is_permutation {α : Type} (rand : Nat → ℚ) (array : List α) :
    (shuffleArray rand array).Perm array ∧
      (shuffleArray rand array).length = array.length :=
  ⟨shuffleArray_perm rand array, (shuffleArray_perm rand array).length_eq⟩

/-- **C9.**  `shuffleArray` does not mutate its input: at the heap level the
array passed in is unchanged after the call (the loop mutates only the fresh
copy made by `[...array]`), and the returned array holds exactly
`shuffleArray` of the original contents. -/
theorem shuffleArrayH_no_mutation {α : Type} (rand : Nat → ℚ)
    (heap : List (List α)) (ref : Nat) (h : ref < heap.length) :
    (shuffleArrayH rand heap ref).1.getD ref [] = heap.getD ref [] ∧
      (shuffleArrayH rand heap ref).1.getD (shuffleArrayH rand heap ref).2 []
        = shuffleArray rand (heap.getD ref []) := by
  unfold shuffleArrayH
  simp only
  constructor
  · rw [shuffleLoopH_frame rand heap.length _ _ ref (by omega)]
    unfold List.getD
    rw [List.get?_eq_getElem?, List.get?_eq_getElem?, List.getElem?_append_left h]
  · rw [shuffleLoopH_contents rand heap.length _ _ (by simp)]
    have hcontents : (heap ++ [heap.getD ref []]).getD heap.length []
        = heap.getD ref [] := by
      unfold List.getD
      rw [List.get?_eq_getElem?, List.getElem?_concat_length]
      rfl
    rw [hcontents]
    rfl

/-- Witness for C9 at a concrete heap, reference and random stream. -/
theorem shuffleArrayH_no_mutation_witness :
    (shuffleArrayH (fun _ => (0 : ℚ))
        [[({ systolic := 120, diastolic := 80, timestamp := 0 } : BloodPressureReading),
          { systolic := 100, diastolic := 70, timestamp := 1000 }]] 0).1.getD 0 []
      = ([[({ systolic := 120, diastolic := 80, timestamp := 0 } : BloodPressureReading),
          { systolic := 100, diastolic := 70, timestamp := 1000 }]] :
            List (List BloodPressureReading)).getD 0 [] ∧
    (shuffleArrayH (fun _ => (0 : ℚ))
        [[({ systolic := 120, diastolic := 80, timestamp := 0 } : BloodPressureReading),
          { systolic := 100, diastolic := 70, timestamp := 1000 }]] 0).1.getD
        (shuffleArrayH (fun _ => (0 : ℚ))
          [[({ systolic := 120, diastolic := 80, timestamp := 0 } : BloodPressureReading),
            { systolic := 100, diastolic := 70, timestamp := 1000 }]] 0).2 []
      = shuffleArray (fun _ => (0 : ℚ))
          (([[({ systolic := 120, diastolic := 80, timestamp := 0 } : BloodPressureReading),
            { systolic := 100, diastolic := 70, timestamp := 1000 }]] :
              List (List BloodPressureReading)).getD 0 []) :=
  shuffleArrayH_no_mutation (fun _ => (0 : ℚ)) _ 0 (by decide)

/-- **C3, counterexample.**  A configuration admitting no valid pair
(systolic and diastolic both pinned to 90, so the pulse pressure 0 is outside
[20, 60]): `generateBloodPressureDataset` returns a *successful* result
carrying an empty dataset, not a `GENERATION_ERROR`. -/
theorem generateBloodPressureDataset_empty_success :
    ((rangeInts (90 : Int) 90).all fun s =>
      (rangeInts (90 : Int) 90).all fun d =>
        !(isValidPulsePreasure
            { systolic := { min := 90, max := 90 }
            , diastolic := { min := 90, max := 90 }
            , pulsePresssure := { min := 20, max := 60 } } s d)) = true ∧
    generateBloodPressureDataset
        { systolic := { min := 90, max := 90 }
        , diastolic := { min := 90, max := 90 }
        , pulsePresssure := { min := 20, max := 60 } } 0 (fun _ => 0)
      = DatasetResult.success [] := by
  constructor
  · decide
  · decide

/-- **C3, amended.**  If the configured ranges admit no (systolic, diastolic)
pair satisfying the pulse-pressure constraint, `generateBloodPressureDataset`
returns a *successful* result carrying the empty dataset (the enumeration and
the recomputed count are both zero, so the self-check passes); it does not
return a `GENERATION_ERROR`. -/
theorem generateBloodPressureDataset_of_no_valid_pair
    (cfg : BloodPressureConfig) (ts : Int) (rand : Nat → ℚ)
    (h : ∀ s ∈ rangeInts cfg.systolic.min cfg.systolic.max,
      ∀ d ∈ rangeInts cfg.diastolic.min cfg.diastolic.max,
        isValidPulsePreasure cfg s d = false) :
    generateBloodPressureDataset cfg ts rand = DatasetResult.success [] := by
  have hempty := generateAllCombinations_of_invalid cfg ts h
  have hcount : calculateExpectedCombinations cfg = 0 := by
    have := generateAllCombinations_length cfg ts
    rw [hempty] at this
    exact this.symm
  unfold generateBloodPressureDataset
  rw [if_neg (by rw [hempty, hcount]; simp)]
  rw [hempty]
  rfl

/-- Witness for the amended C3 at the concrete misconfigured ranges. -/
theorem generateBloodPressureDataset_of_no_valid_pair_witness :
    generateBloodPressureDataset
        { systolic := { min := 90, max := 90 }
        , diastolic := { min := 90, max := 90 }
        , pulsePresssure := { min := 20, max := 60 } } 0 (fun _ => 0)
      = DatasetResult.success [] :=
  generateBloodPressureDataset_of_no_valid_pair _ 0 (fun _ => 0) (by decide)

/-- **C2 (failing input).**  `getReadingAtIndex` on the two-element dataset
`[r0, r1]` at index `-1`: JS computes `-1 % 2 = -1` and `dataset[-1]` is
`undefined`, so the code returns "absent", while the claimed identity
`getReadingAtIndex(d, i) = getReadingAtIndex(d, i + k*len)` (at `i = -1`,
`k = 1`) and the claimed non-absence demand the reading at index 1. -/
theorem getReadingAtIndex_negative_not_wrapped :
    getReadingAtIndex
        [{ systolic := 120, diastolic := 80, timestamp := 0 },
         { systolic := 100, diastolic := 70, timestamp := 1000 }] (-1) = none ∧
    getReadingAtIndex
        [{ systolic := 120, diastolic := 80, timestamp := 0 },
         { systolic := 100, diastolic := 70, timestamp := 1000 }] (-1 + 1 * 2)
      = some { systolic := 100, diastolic := 70, timestamp := 1000 } ∧
    getReadingAtIndex
        [{ systolic := 120, diastolic := 80, timestamp := 0 },
         { systolic := 100, diastolic := 70, timestamp := 1000 }] (-1) ≠
      getReadingAtIndex
        [{ systolic := 120, diastolic := 80, timestamp := 0 },
         { systolic := 100, diastolic := 70, timestamp := 1000 }] (-1 + 1 * 2) := by
  refine ⟨by decide, by decide, by decide⟩

/-! ## Serialization (model of `JSON.stringify` / `Number.prototype.toString`)

All persisted numbers are exact integers, for which `JSON.stringify` and
`toString` produce the plain decimal numeral. -/

/-- The decimal digits of a natural number, most significant first. -/
def natDigitChars (n : Nat) : List Char :=
  if _h : n < 10 then [Char.ofNat (48 + n)]
  else natDigitChars (n / 10) ++ [Char.ofNat (48 + n % 10)]
termination_by n
decreasing_by exact Nat.div_lt_self (by omega) (by omega)

/-- The decimal numeral of an integer (a leading `-` for negatives), as
`JSON.stringify` and `Number.prototype.toString` print integer JS numbers. -/
def intChars (i : Int) : List Char :=
  if i < 0 then '-' :: natDigitChars i.natAbs else natDigitChars i.toNat

/-- `Number.prototype.toString` on an integer JS number. -/
def intToString (i : Int) : String := String.mk (intChars i)

/-- `JSON.stringify` of one reading: keys in insertion order
(`systolic`, `diastolic`, `timestamp`), no whitespace. -/
def readingChars (r : BloodPressureReading) : List Char :=
  "\x7b\"systolic\":".toList ++ intChars r.systolic ++
  ",\"diastolic\":".toList ++ intChars r.diastolic ++
  ",\"timestamp\":".toList ++ intChars r.timestamp ++ ['}']

/-- The remaining elements of a serialized array: a leading comma before each
further reading. -/
def sepChars : List BloodPressureReading → List Char
  | [] => []
  | r :: rs => ',' :: (readingChars r ++ sepChars rs)

/-- `JSON.stringify` of a dataset: `[`, the comma-separated readings, `]`. -/
def stringifyDataset (dataset : List BloodPressureReading) : String :=
  match dataset with
  | [] => String.mk ('[' :: [']'])
  | r :: rs => String.mk ('[' :: (readingChars r ++ (sepChars rs ++ [']'])))

/-! ## Parsing (model of `JSON.parse` on serialized datasets, and of
`parseInt(s, 10)`)

`JSON.parse` is modelled on the sublanguage the store ever writes: arrays of
flat objects with the three integer fields in canonical order, no whitespace.
On that sublanguage (the image of `stringifyDataset`) the model agrees with
`JSON.parse`; any other input is rejected as a parse failure. -/

/-- The numeric value of a run of decimal digit characters. -/
def digitsVal (cs : List Char) : Nat :=
  cs.foldl (fun a c => a * 10 + (c.toNat - 48)) 0

/-- True when the list does not start with a decimal digit. -/
def notDigitStart : List Char → Bool
  | [] => true
  | c :: _ => !c.isDigit

/-- Parse a non-empty maximal run of decimal digits into its value, returning
the rest of the input. -/
def parseNatFromChars (cs : List Char) : Option (Nat × List Char) :=
  let ds := cs.takeWhile Char.isDigit
  if ds.isEmpty then none
  else some (digitsVal ds, cs.dropWhile Char.isDigit)

/-- Parse a JSON integer: an optional `-` followed by digits. -/
def parseIntFromChars (cs : List Char) : Option (Int × List Char) :=
  match cs with
  | [] => none
  | c :: rest =>
    if c = '-' then
      (parseNatFromChars rest).map (fun p => (-(p.1 : Int), p.2))
    else
      (parseNatFromChars (c :: rest)).map (fun p => ((p.1 : Int), p.2))

/-- Consume an exact literal character sequence, returning the rest. -/
def expectChars : List Char → List Char → Option (List Char)
  | [], cs => some cs
  | _ :: _, [] => none
  | p :: ps, c :: cs => if c = p then expectChars ps cs else none

/-- Parse one serialized reading object. -/
def parseReadingChars (cs : List Char) : Option (BloodPressureReading × List Char) := do
  let cs1 ← expectChars "\x7b\"systolic\":".toList cs
  let (s, cs2) ← parseIntFromChars cs1
  let cs3 ← expectChars ",\"diastolic\":".toList cs2
  let (d, cs4) ← parseIntFromChars cs3
  let cs5 ← expectChars ",\"timestamp\":".toList cs4
  let (t, cs6) ← parseIntFromChars cs5
  let cs7 ← expectChars ['}'] cs6
  pure ({ systolic := s, diastolic := d, timestamp := t }, cs7)

/-- True when the list does not start with a comma. -/
def notCommaStart : List Char → Bool
  | [] => true
  | c :: _ => !(c == ',')

/-- Parse the remaining `,<reading>` elements of a serialized array.  The
fuel only needs to exceed the number of elements; callers pass the input
length plus one. -/
def parseMoreReadings :
    Nat → List BloodPressureReading → List Char →
    Option (List BloodPressureReading × List Char)
  | 0, _, _ => none
  | _ + 1, acc, [] => some (acc, [])
  | fuel + 1, acc, c :: rest =>
    if c = ',' then
      (parseReadingChars rest).bind fun rc =>
        parseMoreReadings fuel (acc ++ [rc.1]) rc.2
    else some (acc, c :: rest)

/-- Parse a serialized dataset array, returning the readings and the
remaining input. -/
def parseDatasetChars (cs : List Char) :
    Option (List BloodPressureReading × List Char) :=
  (expectChars ['['] cs).bind fun cs1 =>
    match expectChars [']'] cs1 with
    | some rest => some ([], rest)
    | none =>
      (parseReadingChars cs1).bind fun rc =>
        (parseMoreReadings (rc.2.length + 1) [rc.1] rc.2).bind fun rsc =>
          (expectChars [']'] rsc.2).map fun cs4 => (rsc.1, cs4)

/-- `JSON.parse` restricted to serialized datasets: the whole input must be
one serialized array. -/
def parseDatasetString (s : String) : Option (List BloodPressureReading) :=
  match parseDatasetChars s.toList with
  | some (dataset, []) => some dataset
  | _ => none

/-- The whitespace characters `parseInt` skips (the common StrWhiteSpace
subset; none of them occur in values the store writes). -/
def jsIsSpace (c : Char) : Bool :=
  (c == ' ') || (c == '\t') || (c == '\n') || (c == '\r') ||
    (c == '\x0b') || (c == '\x0c')

/-- The digits-prefix part of `parseInt`: the value of the maximal leading
digit run, `NaN` (here `none`) when there is none. -/
def parseDigitsVal (cs : List Char) : Option Nat :=
  let ds := cs.takeWhile Char.isDigit
  if ds.isEmpty then none else some (digitsVal ds)

/-- `parseInt(s, 10)`: skip leading whitespace, an optional sign, then read
the maximal run of decimal digits (trailing garbage is ignored); `NaN`
(`none`) when no digit follows the sign. -/
def parseIntBase10 (s : String) : Option Int :=
  match s.toList.dropWhile jsIsSpace with
  | [] => none
  | c :: rest =>
    if c = '-' then (parseDigitsVal rest).map (fun n => -(n : Int))
    else if c = '+' then (parseDigitsVal rest).map (fun n => (n : Int))
    else (parseDigitsVal (c :: rest)).map (fun n => (n : Int))

/-! ## The Session Store (storage manager over `localStorage`) -/

/-- `StorageKeys` from `types.ts`. -/
structure StorageKeys where
  dataset : String
  index : String
  timestamp : String
deriving DecidableEq

/-- The module constant `STORAGE_KEYS`. -/
def STORAGE_KEYS : StorageKeys :=
  { dataset := "bp-dataset", index := "bp-index", timestamp := "bp-timestamp" }

/-- `getStorageKeys()`: a (defensive copy of) the storage-keys constant. -/
def getStorageKeys : StorageKeys := STORAGE_KEYS

/-- The `localStorage` collaborator: an association list of string keys and
string values, plus an availability flag.  `available = false` covers both
`typeof window === 'undefined'` and a throwing probe write. -/
structure Storage where
  available : Bool
  items : List (String × String)
deriving DecidableEq

/-- `localStorage.getItem`: the most recently set value for the key, `null`
(`none`) when absent. -/
def getItem (st : Storage) (key : String) : Option String :=
  (st.items.find? (fun p => p.1 == key)).map Prod.snd

/-- `localStorage.setItem` (succeeds whenever storage is available in this
model). -/
def setItem (st : Storage) (key value : String) : Storage :=
  { st with items := (key, value) :: st.items }

/-- `localStorage.removeItem`. -/
def removeItem (st : Storage) (key : String) : Storage :=
  { st with items := st.items.filter (fun p => !(p.1 == key)) }

/-- `isLocalStorageAvailable`: probes by writing and deleting a sentinel key
(`__localStorage_test__`); absence of `window` or a throwing write yields
`false`.  The probe's outcome is the `available` flag; its net effect on the
sentinel key never touches the three `bp-*` slots. -/
def isLocalStorageAvailable (st : Storage) : Bool := st.available

/-- `createStorageError`. -/
def createStorageError (message : String) (details : Option String := none) :
    AppError :=
  { type := ErrorType.STORAGE_ERROR, message := message, details := details }

/-- The error every operation returns when the probe fails. -/
def unavailableError : AppError :=
  createStorageError "localStorage is not available"

/-- `safeJsonParse`, instantiated (as the store does) at
`BloodPressureReading[]`: a parse failure is caught and reported as a
`STORAGE_ERROR` rather than an exception.  (The `details` field carries the
host exception's text; the model uses the fallback string.) -/
def safeJsonParse (jsonString : String) :
    StorageResult (List BloodPressureReading) :=
  match parseDatasetString jsonString with
  | some data => StorageResult.ok data
  | none =>
      StorageResult.err
        (createStorageError "Failed to parse JSON data" (some "Invalid JSON format"))

/-- `storeDataset`: availability probe, then write the serialized dataset to
the `dataset` slot.  Returns the result together with the updated storage. -/
def storeDataset (st : Storage) (dataset : List BloodPressureReading) :
    StorageResult Unit × Storage :=
  if isLocalStorageAvailable st then
    (StorageResult.ok (), setItem st STORAGE_KEYS.dataset (stringifyDataset dataset))
  else (StorageResult.err unavailableError, st)

/-- `getDataset`: availability probe, read the `dataset` slot
(`if (!jsonData)` treats both `null` and the empty string as missing), then
parse. -/
def getDataset (st : Storage) : StorageResult (List BloodPressureReading) :=
  if isLocalStorageAvailable st then
    match getItem st STORAGE_KEYS.dataset with
    | none => StorageResult.err (createStorageError "No dataset found in storage")
    | some jsonData =>
        if jsonData = "" then
          StorageResult.err (createStorageError "No dataset found in storage")
        else safeJsonParse jsonData
  else StorageResult.err unavailableError

/-- `storeCurrentIndex`: writes `index.toString()` to the `index` slot. -/
def storeCurrentIndex (st : Storage) (index : Int) :
    StorageResult Unit × Storage :=
  if isLocalStorageAvailable st then
    (StorageResult.ok (), setItem st STORAGE_KEYS.index (intToString index))
  else (StorageResult.err unavailableError, st)

/-- `getCurrentIndex`: availability probe, missing-slot check
(`=== null`, so the empty string proceeds to `parseInt`), `parseInt(s, 10)`
with an `isNaN` guard. -/
def getCurrentIndex (st : Storage) : StorageResult Int :=
  if isLocalStorageAvailable st then
    match getItem st STORAGE_KEYS.index with
    | none => StorageResult.err (createStorageError "No index found in storage")
    | some indexString =>
        match parseIntBase10 indexString with
        | none => StorageResult.err (createStorageError "Invalid index format in storage")
        | some index => StorageResult.ok index
  else StorageResult.err unavailableError

/-- `storeTimestamp`: same contract as `storeCurrentIndex`, on the
`timestamp` slot. -/
def storeTimestamp (st : Storage) (timestamp : Int) :
    StorageResult Unit × Storage :=
  if isLocalStorageAvailable st then
    (StorageResult.ok (), setItem st STORAGE_KEYS.timestamp (intToString timestamp))
  else (StorageResult.err unavailableError, st)

/-- `getTimestamp`: same contract as `getCurrentIndex`, on the `timestamp`
slot. -/
def getTimestamp (st : Storage) : StorageResult Int :=
  if isLocalStorageAvailable st then
    match getItem st STORAGE_KEYS.timestamp with
    | none => StorageResult.err (createStorageError "No timestamp found in storage")
    | some timestampString =>
        match parseIntBase10 timestampString with
        | none => StorageResult.err (createStorageError "Invalid timestamp format in storage")
        | some timestamp => StorageResult.ok timestamp
  else StorageResult.err unavailableError

/-- `clearStorage`: removes all three slots. -/
def clearStorage (st : Storage) : StorageResult Unit × Storage :=
  if isLocalStorageAvailable st then
    (StorageResult.ok (),
      removeItem (removeItem (removeItem st STORAGE_KEYS.dataset)
        STORAGE_KEYS.index) STORAGE_KEYS.timestamp)
  else (StorageResult.err unavailableError, st)

/-- `isAppInitialized`: `false` when storage is unavailable, else true iff
all three slots are present. -/
def isAppInitialized (st : Storage) : Bool :=
  if isLocalStorageAvailable st then
    (getItem st STORAGE_KEYS.dataset).isSome &&
      (getItem st STORAGE_KEYS.index).isSome &&
      (getItem st STORAGE_KEYS.timestamp).isSome
  else false

/-! ## Round-trip of the serialized numerals -/

theorem toNat_digitChar (d : Nat) (hd : d < 10) :
    (Char.ofNat (48 + d)).toNat = 48 + d := by
  interval_cases d <;> decide

theorem isDigit_digitChar (d : Nat) (hd : d < 10) :
    (Char.ofNat (48 + d)).isDigit = true := by
  interval_cases d <;> decide

theorem natDigitChars_ne_nil (n : Nat) : natDigitChars n ≠ [] := by
  rw [natDigitChars]
  split <;> simp

theorem natDigitChars_all_digits (n : Nat) :
    ∀ c ∈ natDigitChars n, c.isDigit = true := by
  induction n using Nat.strong_induction_on with
  | _ n ih =>
    rw [natDigitChars]
    split
    · intro c hc
      simp only [List.mem_singleton] at hc
      subst hc
      exact isDigit_digitChar n (by omega)
    · intro c hc
      rcases List.mem_append.mp hc with h | h
      · exact ih (n / 10) (Nat.div_lt_self (by omega) (by omega)) c h
      · simp only [List.mem_singleton] at h
        subst h
        exact isDigit_digitChar (n % 10) (Nat.mod_lt n (by omega))

theorem digitsVal_append_one (xs : List Char) (c : Char) :
    digitsVal (xs ++ [c]) = digitsVal xs * 10 + (c.toNat - 48) := by
  simp [digitsVal, List.foldl_append]

theorem digitsVal_natDigitChars (n : Nat) :
    digitsVal (natDigitChars n) = n := by
  induction n using Nat.strong_induction_on with
  | _ n ih =>
    rw [natDigitChars]
    split
    · rename_i h
      simp only [digitsVal, List.foldl_cons, List.foldl_nil]
      rw [toNat_digitChar n h]
      omega
    · rename_i h
      rw [digitsVal_append_one, ih (n / 10) (Nat.div_lt_self (by omega) (by omega)),
        toNat_digitChar (n % 10) (Nat.mod_lt n (by omega))]
      omega

theorem takeWhile_append_all {p : Char → Bool} :
    ∀ (xs ys : List Char), (∀ x ∈ xs, p x = true) →
      (xs ++ ys).takeWhile p = xs ++ ys.takeWhile p := by
  intro xs ys
  induction xs with
  | nil => intro _; rfl
  | cons x xs ih =>
    intro h
    have hx := h x (List.mem_cons_self x xs)
    simp only [List.cons_append, List.takeWhile_cons, hx]
    rw [ih (fun x' hx' => h x' (List.mem_cons_of_mem x hx'))]
    simp

theorem dropWhile_append_all {p : Char → Bool} :
    ∀ (xs ys : List Char), (∀ x ∈ xs, p x = true) →
      (xs ++ ys).dropWhile p = ys.dropWhile p := by
  intro xs ys
  induction xs with
  | nil => intro _; rfl
  | cons x xs ih =>
    intro h
    have hx := h x (List.mem_cons_self x xs)
    simp only [List.cons_append, List.dropWhile_cons, hx]
    exact ih (fun x' hx' => h x' (List.mem_cons_of_mem x hx'))

theorem takeWhile_not_head {p : Char → Bool} (ys : List Char)
    (h : ∀ c, ys.head? = some c → p c = false) : ys.takeWhile p = [] := by
  cases ys with
  | nil => rfl
  | cons y ys =>
    have := h y rfl
    simp [List.takeWhile_cons, this]

theorem dropWhile_not_head {p : Char → Bool} (ys : List Char)
    (h : ∀ c, ys.head? = some c → p c = false) : ys.dropWhile p = ys := by
  cases ys with
  | nil => rfl
  | cons y ys =>
    have := h y rfl
    simp [List.dropWhile_cons, this]

theorem notDigitStart_head (rest : List Char) (h : notDigitStart rest = true) :
    ∀ c, rest.head? = some c → c.isDigit = false := by
  intro c hc
  cases rest with
  | nil => simp at hc
  | cons r rest =>
    simp only [List.head?_cons, Option.some.injEq] at hc
    subst hc
    simpa [notDigitStart] using h

theorem parseNatFromChars_natDigitChars (n : Nat) (rest : List Char)
    (h : notDigitStart rest = true) :
    parseNatFromChars (natDigitChars n ++ rest) = some (n, rest) := by
  unfold parseNatFromChars
  rw [takeWhile_append_all _ _ (natDigitChars_all_digits n),
    dropWhile_append_all _ _ (natDigitChars_all_digits n),
    takeWhile_not_head _ (notDigitStart_head rest h),
    dropWhile_not_head _ (notDigitStart_head rest h)]
  simp only [List.append_nil]
  rw [if_neg (by simpa using natDigitChars_ne_nil n)]
  rw [digitsVal_natDigitChars]

theorem parseIntFromChars_intChars (i : Int) (rest : List Char)
    (h : notDigitStart rest = true) :
    parseIntFromChars (intChars i ++ rest) = some (i, rest) := by
  unfold intChars
  split
  · rename_i hneg
    show parseIntFromChars ('-' :: (natDigitChars i.natAbs ++ rest)) = _
    simp only [parseIntFromChars]
    rw [if_pos trivial, parseNatFromChars_natDigitChars i.natAbs rest h]
    simp only [Option.map_some']
    congr 2
    omega
  · rename_i hpos
    obtain ⟨c, cs, hc⟩ := List.exists_cons_of_ne_nil (natDigitChars_ne_nil i.toNat)
    have hcd : c.isDigit = true :=
      natDigitChars_all_digits i.toNat c (by rw [hc]; exact List.mem_cons_self c cs)
    have hcne : ¬(c = '-') := by rintro rfl; simp at hcd
    rw [hc, List.cons_append]
    simp only [parseIntFromChars]
    rw [if_neg hcne, ← List.cons_append, ← hc,
      parseNatFromChars_natDigitChars i.toNat rest h]
    simp only [Option.map_some']
    congr 2
    omega

/-! ## Round-trip of serialized datasets -/

theorem expectChars_append : ∀ (pat cs : List Char),
    expectChars pat (pat ++ cs) = some cs := by
  intro pat cs
  induction pat with
  | nil => rfl
  | cons p ps ih =>
    show expectChars (p :: ps) (p :: (ps ++ cs)) = some cs
    simp only [expectChars]
    rw [if_pos trivial]
    exact ih

theorem ndStart_dia (X : List Char) :
    notDigitStart (",\"diastolic\":".toList ++ X) = true := rfl

theorem ndStart_ts (X : List Char) :
    notDigitStart (",\"timestamp\":".toList ++ X) = true := rfl

theorem ndStart_rbrace (X : List Char) :
    notDigitStart (['}'] ++ X) = true := rfl

theorem parseReadingChars_readingChars (r : BloodPressureReading)
    (rest : List Char) :
    parseReadingChars (readingChars r ++ rest) = some (r, rest) := by
  unfold readingChars parseReadingChars
  simp only [List.append_assoc]
  rw [expectChars_append]
  simp only [Option.bind_eq_bind, Option.some_bind]
  rw [parseIntFromChars_intChars _ _ (ndStart_dia _)]
  simp only [Option.some_bind]
  rw [expectChars_append]
  simp only [Option.some_bind]
  rw [parseIntFromChars_intChars _ _ (ndStart_ts _)]
  simp only [Option.some_bind]
  rw [expectChars_append]
  simp only [Option.some_bind]
  rw [parseIntFromChars_intChars _ _ (ndStart_rbrace _)]
  simp only [Option.some_bind]
  rw [expectChars_append]
  rfl

theorem parseMoreReadings_sepChars :
    ∀ (rs : List BloodPressureReading) (fuel : Nat)
      (acc : List BloodPressureReading) (rest : List Char),
      rs.length < fuel → notCommaStart rest = true →
      parseMoreReadings fuel acc (sepChars rs ++ rest) = some (acc ++ rs, rest) := by
  intro rs
  induction rs with
  | nil =>
    intro fuel acc rest hfuel hrest
    match fuel with
    | f + 1 =>
      simp only [sepChars, List.nil_append]
      match rest with
      | [] => simp [parseMoreReadings]
      | c :: rest' =>
        have hc : ¬(c = ',') := by
          intro hc
          subst hc
          simp [notCommaStart] at hrest
        simp only [parseMoreReadings]
        rw [if_neg hc]
        simp
  | cons r rs ih =>
    intro fuel acc rest hfuel hrest
    match fuel with
    | f + 1 =>
      simp only [sepChars, List.cons_append, List.append_assoc]
      simp only [parseMoreReadings]
      rw [if_pos trivial, parseReadingChars_readingChars]
      simp only [Option.some_bind]
      rw [ih f (acc ++ [r]) rest (by simpa using hfuel) hrest]
      simp

theorem length_le_sepChars_length (rs : List BloodPressureReading) :
    rs.length ≤ (sepChars rs).length := by
  induction rs with
  | nil => simp [sepChars]
  | cons r rs ih =>
    simp only [sepChars, List.length_cons, List.length_append]
    omega

theorem rbracket_after_reading (X : List Char) :
    expectChars [']'] ("\x7b\"systolic\":".toList ++ X) = none := rfl

theorem parseDatasetChars_stringify (dataset : List BloodPressureReading) :
    parseDatasetChars (stringifyDataset dataset).toList = some (dataset, []) := by
  match dataset with
  | [] => rfl
  | r :: rs =>
    show parseDatasetChars ('[' :: (readingChars r ++ (sepChars rs ++ [']']))) = _
    unfold parseDatasetChars
    rw [show ('[' :: (readingChars r ++ (sepChars rs ++ [']'])))
        = ['['] ++ (readingChars r ++ (sepChars rs ++ [']'])) from rfl]
    rw [expectChars_append]
    simp only [Option.bind_eq_bind, Option.some_bind]
    have hnone : expectChars [']'] (readingChars r ++ (sepChars rs ++ [']'])) = none := by
      unfold readingChars
      simp only [List.append_assoc]
      exact rbracket_after_reading _
    rw [hnone, parseReadingChars_readingChars]
    simp only [Option.some_bind]
    rw [parseMoreReadings_sepChars rs _ [r] [']']
      (by have := length_le_sepChars_length rs; simp; omega) rfl]
    simp only [Option.some_bind]
    rw [show expectChars [']'] [']'] = some [] from rfl]
    simp

theorem parseDatasetString_stringify (dataset : List BloodPressureReading) :
    parseDatasetString (stringifyDataset dataset) = some dataset := by
  unfold parseDatasetString
  rw [parseDatasetChars_stringify]

/-! ## Claim theorems for the Session Store -/

theorem getItem_setItem_self (st : Storage) (key value : String) :
    getItem (setItem st key value) key = some value := by
  unfold getItem setItem
  simp [List.find?_cons_of_pos]

theorem setItem_available (st : Storage) (key value : String) :
    (setItem st key value).available = st.available := rfl

theorem stringifyDataset_ne_empty (dataset : List BloodPressureReading) :
    stringifyDataset dataset ≠ "" := by
  intro h
  have h2 := congrArg String.toList h
  rw [show ("" : String).toList = [] from rfl] at h2
  match dataset, h2 with
  | [], h2 => simp [stringifyDataset] at h2
  | r :: rs, h2 => simp [stringifyDataset] at h2

/-- **C7.**  When persistence is available (writes succeed in the model
whenever the probe does), `storeDataset d` succeeds and a following
`getDataset` returns exactly `d`, field for field, for every dataset of
integer-valued readings. -/
theorem storeDataset_getDataset_roundtrip (st : Storage)
    (dataset : List BloodPressureReading) (h : st.available = true) :
    (storeDataset st dataset).1 = StorageResult.ok () ∧
      getDataset (storeDataset st dataset).2 = StorageResult.ok dataset := by
  unfold storeDataset
  rw [show isLocalStorageAvailable st = true from h]
  simp only [if_true]
  refine ⟨trivial, ?_⟩
  unfold getDataset
  rw [show isLocalStorageAvailable
      (setItem st STORAGE_KEYS.dataset (stringifyDataset dataset)) = true from h]
  simp only [if_true]
  rw [getItem_setItem_self]
  show (if stringifyDataset dataset = "" then
      StorageResult.err (createStorageError "No dataset found in storage")
    else safeJsonParse (stringifyDataset dataset)) = StorageResult.ok dataset
  rw [if_neg (stringifyDataset_ne_empty dataset)]
  unfold safeJsonParse
  rw [parseDatasetString_stringify]

/-- Witness for C7: a concrete available store and two-reading dataset. -/
theorem storeDataset_getDataset_roundtrip_witness :
    (storeDataset { available := true, items := [] }
        [{ systolic := 120, diastolic := 80, timestamp := 5 },
         { systolic := 100, diastolic := 70, timestamp := -3 }]).1
      = StorageResult.ok () ∧
    getDataset (storeDataset { available := true, items := [] }
        [{ systolic := 120, diastolic := 80, timestamp := 5 },
         { systolic := 100, diastolic := 70, timestamp := -3 }]).2
      = StorageResult.ok
          [{ systolic := 120, diastolic := 80, timestamp := 5 },
           { systolic := 100, diastolic := 70, timestamp := -3 }] :=
  storeDataset_getDataset_roundtrip { available := true, items := [] } _ rfl

/-- **C4.**  With persistence available, `getCurrentIndex` returns a
`STORAGE_ERROR` result exactly when the index slot is absent or the stored
text does not parse to an integer (under `parseInt(s, 10)` semantics), and
otherwise returns success carrying that integer.  The model is a total
function: no exception escapes. -/
theorem getCurrentIndex_eq (st : Storage) (h : st.available = true) :
    getCurrentIndex st =
      match getItem st STORAGE_KEYS.index with
      | none => StorageResult.err (createStorageError "No index found in storage")
      | some indexString =>
        match parseIntBase10 indexString with
        | none =>
            StorageResult.err (createStorageError "Invalid index format in storage")
        | some index => StorageResult.ok index := by
  unfold getCurrentIndex
  rw [show isLocalStorageAvailable st = true from h]
  simp only [if_true]

theorem getCurrentIndex_spec (st : Storage) (h : st.available = true) :
    ((∃ e, getCurrentIndex st = StorageResult.err e ∧
        e.type = ErrorType.STORAGE_ERROR) ↔
      (getItem st STORAGE_KEYS.index = none ∨
        ∃ s, getItem st STORAGE_KEYS.index = some s ∧ parseIntBase10 s = none)) ∧
    (∀ s n, getItem st STORAGE_KEYS.index = some s → parseIntBase10 s = some n →
      getCurrentIndex st = StorageResult.ok n) := by
  cases hslot : getItem st STORAGE_KEYS.index with
  | none =>
    have hval : getCurrentIndex st
        = StorageResult.err (createStorageError "No index found in storage") := by
      rw [getCurrentIndex_eq st h, hslot]
    refine ⟨⟨fun _ => Or.inl rfl, fun _ => ⟨_, hval, rfl⟩⟩, ?_⟩
    intro s n hs _
    cases hs
  | some s =>
    cases hp : parseIntBase10 s with
    | none =>
      have hval : getCurrentIndex st
          = StorageResult.err (createStorageError "Invalid index format in storage") := by
        rw [getCurrentIndex_eq st h, hslot]
        show (match parseIntBase10 s with
          | none =>
              StorageResult.err (createStorageError "Invalid index format in storage")
          | some index => StorageResult.ok index) = _
        rw [hp]
      refine ⟨⟨fun _ => Or.inr ⟨s, rfl, hp⟩, fun _ => ⟨_, hval, rfl⟩⟩, ?_⟩
      intro s' n hs' hp'
      cases hs'
      rw [hp] at hp'
      cases hp'
    | some n =>
      have hval : getCurrentIndex st = StorageResult.ok n := by
        rw [getCurrentIndex_eq st h, hslot]
        show (match parseIntBase10 s with
          | none =>
              StorageResult.err (createStorageError "Invalid index format in storage")
          | some index => StorageResult.ok index) = _
        rw [hp]
      constructor
      · constructor
        · rintro ⟨e, he, _⟩
          rw [hval] at he
          cases he
        · rintro (hnone | ⟨s', hs', hp'⟩)
          · cases hnone
          · cases hs'
            rw [hp] at hp'
            cases hp'
      · intro s' n' hs' hp'
        cases hs'
        rw [hp] at hp'
        cases hp'
        exact hval

/-- Witness for C4: a concrete available store whose index slot holds the
non-numeric text `"abc"`. -/
theorem getCurrentIndex_spec_witness :
    ((∃ e, getCurrentIndex { available := true, items := [("bp-index", "abc")] }
          = StorageResult.err e ∧ e.type = ErrorType.STORAGE_ERROR) ↔
      (getItem { available := true, items := [("bp-index", "abc")] }
          STORAGE_KEYS.index = none ∨
        ∃ s, getItem { available := true, items := [("bp-index", "abc")] }
            STORAGE_KEYS.index = some s ∧ parseIntBase10 s = none)) ∧
    (∀ s n, getItem { available := true, items := [("bp-index", "abc")] }
        STORAGE_KEYS.index = some s → parseIntBase10 s = some n →
      getCurrentIndex { available := true, items := [("bp-index", "abc")] }
        = StorageResult.ok n) :=
  getCurrentIndex_spec { available := true, items := [("bp-index", "abc")] } rfl

/-- **C8.**  When the persistence collaborator is unavailable or absent,
every store and get operation of the Session Store returns a
`STORAGE_ERROR` result carrying the unavailability message, and
`isAppInitialized` returns `false`; all operations are total (none raises). -/
theorem storage_unavailable_all_error (st : Storage)
    (dataset : List BloodPressureReading) (i t : Int)
    (h : st.available = false) :
    (storeDataset st dataset).1 = StorageResult.err unavailableError ∧
    getDataset st = StorageResult.err unavailableError ∧
    (storeCurrentIndex st i).1 = StorageResult.err unavailableError ∧
    getCurrentIndex st = StorageResult.err unavailableError ∧
    (storeTimestamp st t).1 = StorageResult.err unavailableError ∧
    getTimestamp st = StorageResult.err unavailableError ∧
    (clearStorage st).1 = StorageResult.err unavailableError ∧
    isAppInitialized st = false ∧
    unavailableError.type = ErrorType.STORAGE_ERROR ∧
    unavailableError.message = "localStorage is not available" := by
  unfold storeDataset getDataset storeCurrentIndex getCurrentIndex
    storeTimestamp getTimestamp clearStorage isAppInitialized
  rw [show isLocalStorageAvailable st = false from h]
  simp
  exact ⟨rfl, rfl⟩

/-- Witness for C8: the concrete unavailable store. -/
theorem storage_unavailable_all_error_witness :
    (storeDataset { available := false, items := [] } []).1
        = StorageResult.err unavailableError ∧
    getDataset { available := false, items := [] }
        = StorageResult.err unavailableError ∧
    (storeCurrentIndex { available := false, items := [] } 0).1
        = StorageResult.err unavailableError ∧
    getCurrentIndex { available := false, items := [] }
        = StorageResult.err unavailableError ∧
    (storeTimestamp { available := false, items := [] } 0).1
        = StorageResult.err unavailableError ∧
    getTimestamp { available := false, items := [] }
        = StorageResult.err unavailableError ∧
    (clearStorage { available := false, items := [] }).1
        = StorageResult.err unavailableError ∧
    isAppInitialized { available := false, items := [] } = false ∧
    unavailableError.type = ErrorType.STORAGE_ERROR ∧
    unavailableError.message = "localStorage is not available" :=
  storage_unavailable_all_error { available := false, items := [] } [] 0 0 rfl
